import Mathlib

/-!
Verification development for the CricMetrics IPL analytics pipeline.

Shallow embedding of:
- fetch_ipl_data.py : the ingestion pipeline (validation gates, fixture
  dedup, per-innings batting/bowling fact construction, store writes);
- src/analytics/player_classifier.py : the rule-based batsman and bowler
  classifiers;
- src/analytics/metrics.py : the consistency index;
- src/analytics/team_analyzer.py : team-profile and toss-impact
  percentages;
- src/utils/database.py : the logical schema facts the proofs rely on, in
  particular that the matches table has no UNIQUE constraint besides its
  autoincrement primary key, so INSERT OR IGNORE on it always inserts.

Python float arithmetic is modelled over the rationals (over the reals
where a square root occurs); the Python round builtin is modelled
including its round-half-to-even tie rule.
-/

namespace CricMetrics

/-- Wicket event attached to a delivery. The script reads
wicket.get('player_out') and wicket.get('kind', 'out'), so the kind is
modelled with the default already applied. -/
structure Wicket where
  playerOut : String
  kind : String
deriving DecidableEq

/-- One delivery of an innings. runsBatter and runsTotal model
delivery.get('runs', {}).get('batter' / 'total', 0), that is the values
with the missing-key default 0 applied; an absent wickets key is the
empty list. -/
structure Delivery where
  batter : String
  bowler : String
  runsBatter : Nat
  runsTotal : Nat
  wickets : List Wicket
deriving DecidableEq

/-- One innings of the source record: the batting team plus the overs,
each over being its list of deliveries in ball order (the two nested
loops of the script visit the per-over lists in this order). -/
structure Innings where
  team : String
  overs : List (List Delivery)
deriving DecidableEq

/-- Deliveries of an innings in the visit order of the nested loops. -/
def Innings.deliveries (i : Innings) : List Delivery := i.overs.flatten

/-- Value of the first entry with the given key (Python dict lookup; keys
are unique in a dict, so the first entry is the entry). -/
def lookupKey {β : Type} (k : String) : List (String × β) → Option β
  | [] => none
  | (k₁, v) :: rest => if k₁ = k then some v else lookupKey k rest

/-- Update the first entry carrying the given key, leaving everything
else unchanged (Python dict item mutation). -/
def updateFirst {β : Type} (k : String) (f : β → β) :
    List (String × β) → List (String × β)
  | [] => []
  | (k₁, v) :: rest =>
      if k₁ = k then (k₁, f v) :: rest else (k₁, v) :: updateFirst k f rest

/-- One dict-accumulation step of the ingestion loops: if the key is
absent, insert a fresh value at the end (Python dicts preserve insertion
order), then mutate the entry for the key. -/
def stepAccum {β : Type} (k : String) (f : β → β) (fresh : β)
    (l : List (String × β)) : List (String × β) :=
  if (lookupKey k l).isSome then updateFirst k f l
  else updateFirst k f (l ++ [(k, fresh)])

/-- Sum of a numeric field over all values of the accumulator. -/
def sumBy {β : Type} (g : β → Nat) (l : List (String × β)) : Nat :=
  (l.map (fun p => g p.2)).sum

/-- Running per-batter accumulator entry, fetch_ipl_data.py lines
172-191. -/
structure BatStats where
  runs : Nat
  balls : Nat
  fours : Nat
  sixes : Nat
  position : Nat
  dismissal : Option String
deriving DecidableEq

/-- Fresh accumulator entry for a batter first seen at the given
position. -/
def freshBat (pos : Nat) : BatStats :=
  { runs := 0, balls := 0, fours := 0, sixes := 0
    position := pos, dismissal := none }

/-- Dismissal field after one delivery: the script walks the wicket
events of the delivery and records the kind of each event whose
player_out equals this delivery's batter, so the last such event wins. -/
def dismissalAfter (d : Delivery) (init : Option String) : Option String :=
  d.wickets.foldl
    (fun acc w => if w.playerOut = d.batter then some w.kind else acc) init

/-- Mutation of the facing batter's entry for one delivery (runs and
balls accumulate; the four and six counters are driven by runs off the
bat; the Python if/elif on 4 and 6 is equivalent to two independent
indicators since no value is both). -/
def applyBatDelivery (d : Delivery) (s : BatStats) : BatStats :=
  { runs := s.runs + d.runsBatter
    balls := s.balls + 1
    fours := s.fours + (if d.runsBatter = 4 then 1 else 0)
    sixes := s.sixes + (if d.runsBatter = 6 then 1 else 0)
    position := s.position
    dismissal := dismissalAfter d s.dismissal }

/-- Batting accumulator: the running dict plus the next position
counter (the script starts the counter at 1 and bumps it whenever a new
batter is inserted). -/
structure BatAcc where
  stats : List (String × BatStats)
  pos : Nat

/-- One delivery of the batting pass of the ingestion loop. -/
def batStep (acc : BatAcc) (d : Delivery) : BatAcc :=
  { stats := stepAccum d.batter (applyBatDelivery d) (freshBat acc.pos) acc.stats
    pos := if (lookupKey d.batter acc.stats).isSome then acc.pos else acc.pos + 1 }

/-- Batting accumulator of a whole innings (nested over/delivery
loops). -/
def batAccOf (i : Innings) : BatAcc :=
  i.overs.foldl (fun a ov => ov.foldl batStep a) { stats := [], pos := 1 }

/-- One batting_stats row as inserted at fetch_ipl_data.py lines
199-206. -/
structure BattingRow where
  matchId : Nat
  player : String
  team : String
  innings : Nat
  runs : Nat
  balls : Nat
  fours : Nat
  sixes : Nat
  strikeRate : ℚ
  position : Nat
  dismissalKind : Option String
  isNotOut : Bool
deriving DecidableEq

/-- Batting row built from one accumulator entry; the strike rate is
computed here, at ingestion time, as runs / balls * 100. -/
def mkBattingRow (matchId : Nat) (team : String) (inn : Nat)
    (p : String × BatStats) : BattingRow :=
  { matchId := matchId, player := p.1, team := team, innings := inn
    runs := p.2.runs, balls := p.2.balls
    fours := p.2.fours, sixes := p.2.sixes
    strikeRate := (p.2.runs : ℚ) / (p.2.balls : ℚ) * 100
    position := p.2.position
    dismissalKind := p.2.dismissal
    isNotOut := p.2.dismissal.isNone }

/-- Batting facts emitted for one innings: one row per accumulated
batter, kept only if the batter faced at least one ball. -/
def battingFactsOf (matchId : Nat) (inn : Nat) (i : Innings) :
    List BattingRow :=
  ((batAccOf i).stats.filter (fun p => decide (0 < p.2.balls))).map
    (mkBattingRow matchId i.team inn)

/-- Running per-bowler accumulator entry, fetch_ipl_data.py lines
216-228. -/
structure BowlStats where
  balls : Nat
  runs : Nat
  wickets : Nat
  dots : Nat
deriving DecidableEq

/-- Fresh accumulator entry for a bowler. -/
def freshBowl : BowlStats := { balls := 0, runs := 0, wickets := 0, dots := 0 }

/-- Mutation of the bowler's entry for one delivery: runs conceded use
the delivery's total runs; all wicket events on the delivery credit the
bowler; a dot is a delivery with total runs 0. -/
def applyBowlDelivery (d : Delivery) (s : BowlStats) : BowlStats :=
  { balls := s.balls + 1
    runs := s.runs + d.runsTotal
    wickets := s.wickets + d.wickets.length
    dots := s.dots + (if d.runsTotal = 0 then 1 else 0) }

/-- One delivery of the bowling pass of the ingestion loop. -/
def bowlStep (l : List (String × BowlStats)) (d : Delivery) :
    List (String × BowlStats) :=
  stepAccum d.bowler (applyBowlDelivery d) freshBowl l

/-- Bowling accumulator of a whole innings. -/
def bowlAccOf (i : Innings) : List (String × BowlStats) :=
  i.overs.foldl (fun a ov => ov.foldl bowlStep a) []

/-- Python round for a value of a linear ordered field: nearest integer,
ties going to the even neighbour. -/
def pyRound {α : Type} [LinearOrderedField α] [FloorRing α] (x : α) : ℤ :=
  if x - ⌊x⌋ = 1 / 2 then (if ⌊x⌋ % 2 = 0 then ⌊x⌋ else ⌊x⌋ + 1)
  else round x

/-- Python round(x, 1). -/
def round1Q (x : ℚ) : ℚ := (pyRound (x * 10) : ℚ) / 10

/-- Python round(x, 2). -/
def round2Q (x : ℚ) : ℚ := (pyRound (x * 100) : ℚ) / 100

/-- One bowling_stats row as inserted at fetch_ipl_data.py lines
239-245. -/
structure BowlingRow where
  matchId : Nat
  player : String
  team : String
  innings : Nat
  overs : ℚ
  runsConceded : Nat
  wickets : Nat
  economy : ℚ
  dots : Nat
deriving DecidableEq

/-- Bowling row built from one accumulator entry: overs is balls / 6
rounded to one decimal; economy is runs over unrounded overs, guarded to
0 when overs is 0, rounded to two decimals at insert. -/
def mkBowlingRow (matchId : Nat) (team : String) (inn : Nat)
    (p : String × BowlStats) : BowlingRow :=
  let overs0 : ℚ := (p.2.balls : ℚ) / 6
  let eco : ℚ := if 0 < overs0 then (p.2.runs : ℚ) / overs0 else 0
  { matchId := matchId, player := p.1, team := team, innings := inn
    overs := round1Q overs0
    runsConceded := p.2.runs, wickets := p.2.wickets
    economy := round2Q eco, dots := p.2.dots }

/-- Bowling facts emitted for one innings: one row per accumulated
bowler with at least one ball bowled; the bowling team is whichever of
the two match teams is not batting in this innings. -/
def bowlingFactsOf (matchId : Nat) (team1 team2 : String) (inn : Nat)
    (i : Innings) : List BowlingRow :=
  let bowlingTeam := if i.team = team1 then team2 else team1
  ((bowlAccOf i).filter (fun p => decide (0 < p.2.balls))).map
    (mkBowlingRow matchId bowlingTeam inn)

/-- One row of the matches table (the columns the script writes; the
schema's umpire and match_number columns are never written and carry no
content). -/
structure MatchRow where
  matchId : Nat
  season : Int
  matchDate : String
  venue : String
  city : String
  team1 : String
  team2 : String
  tossWinner : Option String
  tossDecision : Option String
  winner : Option String
  resultType : String
  resultMargin : Nat
  playerOfMatch : Option String
  matchType : String
deriving DecidableEq

/-- The relational store: the three fact tables plus the autoincrement
counter of the matches table (sqlite row ids start at 1). -/
structure Store where
  matchRows : List MatchRow
  batting : List BattingRow
  bowling : List BowlingRow
  nextId : Nat

/-- Empty store right after create_tables. -/
def Store.empty : Store := { matchRows := [], batting := [], bowling := [], nextId := 1 }

/-- Schema fact from database.py: the matches table carries no UNIQUE
constraint besides its autoincrement primary key, so the INSERT OR
IGNORE of the script always actually inserts, and lastrowid is the fresh
row id, which is never 0. -/
def insertMatch (st : Store) (mk : Nat → MatchRow) : Store × Nat :=
  ({ st with matchRows := st.matchRows ++ [mk st.nextId], nextId := st.nextId + 1 },
   st.nextId)

/-- Outcome.by of the source record: a runs margin, a wickets margin, or
neither (tie / no result). -/
inductive Outcome where
  | byRuns (n : Nat)
  | byWickets (n : Nat)
  | neither
deriving DecidableEq

/-- Info block of one source match record, with the per-field defaults of
the script already applied (venue and city default to Unknown, a missing
player_of_match list yields none). The season field holds the year after
the int parse of the script, whose string form takes the first
slash-separated component; the parse itself is not under
verification. -/
structure MatchInfo where
  eventName : String
  season : Int
  dates : List String
  teams : List String
  venue : String
  city : String
  tossWinner : Option String
  tossDecision : Option String
  winner : Option String
  outcomeBy : Outcome
  playerOfMatch : Option String
deriving DecidableEq

/-- One element of the innings array of a record: either the expected
nested shape, or a structurally malformed value whose field access raises
inside the per-record try block (the AttributeError / TypeError class of
failures of the spec's error taxonomy). -/
inductive RawInnings where
  | good (i : Innings)
  | malformed

/-- One source match record. -/
structure MatchRecord where
  info : MatchInfo
  innings : List RawInnings

/-- State of one ingestion run: the store under the open connection, the
in-memory processed_matches dedup set of this run, and the run
counters. -/
structure RunState where
  store : Store
  processedMatches : List String
  processed : Nat
  skipped : Nat
  duplicates : Nat

/-- Run state at the start of the script over a fresh database. -/
def initialRun : RunState :=
  { store := Store.empty, processedMatches := [], processed := 0
    skipped := 0, duplicates := 0 }

/-- Run state at the start of a later run of the script over an existing
store: the processed_matches set and the counters are per-run in-memory
state and start empty. -/
def newRun (store : Store) : RunState :=
  { store := store, processedMatches := [], processed := 0
    skipped := 0, duplicates := 0 }

/-- Substring test on character lists (the Python in operator on
strings). -/
def infixOfChars (needle : List Char) : List Char → Bool
  | [] => decide (needle = [])
  | c :: rest => needle.isPrefixOf (c :: rest) || infixOfChars needle rest

/-- Python needle in hay for strings. -/
def strContains (hay needle : String) : Bool := infixOfChars needle.data hay.data

/-- Fixture fingerprint of the dedup check, the f-string
season_date_team1_team2_venue of fetch_ipl_data.py line 105. -/
def fingerprintOf (season : Int) (date t1 t2 venue : String) : String :=
  toString season ++ "_" ++ date ++ "_" ++ t1 ++ "_" ++ t2 ++ "_" ++ venue

/-- Innings loop of one record (fetch_ipl_data.py lines 158-245): facts
of each well-formed innings are inserted in order; a malformed innings
raises, which aborts the rest of the record but keeps the rows already
inserted (the open transaction is not rolled back by the per-record
except handler). Returns whether the record completed together with the
resulting store. -/
def processInnings (mid : Nat) (t1 t2 : String) :
    List RawInnings → Nat → Store → Bool × Store
  | [], _, st => (true, st)
  | RawInnings.good i :: rest, n, st =>
      processInnings mid t1 t2 rest (n + 1)
        { st with
          batting := st.batting ++ battingFactsOf mid n i
          bowling := st.bowling ++ bowlingFactsOf mid t1 t2 n i }
  | RawInnings.malformed :: _, _, st => (false, st)

/-- Match row built for one record: toss, outcome (result type and
margin from the by block), player of match, and the Final-venue match
type heuristic of the script. -/
def matchRowOf (info : MatchInfo) (date t1 t2 : String) (id : Nat) : MatchRow :=
  let rt : String × Nat :=
    match info.outcomeBy with
    | Outcome.byRuns n => ("runs", n)
    | Outcome.byWickets n => ("wickets", n)
    | Outcome.neither => ("tie", 0)
  let mt := if strContains info.venue.toLower "final" then "Final" else "League"
  { matchId := id, season := info.season, matchDate := date
    venue := info.venue, city := info.city, team1 := t1, team2 := t2
    tossWinner := info.tossWinner, tossDecision := info.tossDecision
    winner := info.winner, resultType := rt.1, resultMargin := rt.2
    playerOfMatch := info.playerOfMatch, matchType := mt }

/-- Processing of one record inside the ingestion loop, fetch_ipl_data.py
lines 64-253: the validation gates in order (competition label, season
range, date presence, two teams, in-run fingerprint dedup), then the
match insert, the dead lastrowid = 0 duplicate check, marking the
fingerprint processed, and the innings loop; a structural error swallows
into a bare continue (no counter, no rollback). -/
def processRecord (st : RunState) (r : MatchRecord) : RunState :=
  let info := r.info
  if strContains info.eventName "Indian Premier League" = false ∧
      strContains info.eventName "IPL" = false then
    { st with skipped := st.skipped + 1 }
  else if info.season < 2016 ∨ 2024 < info.season then
    { st with skipped := st.skipped + 1 }
  else
    match info.dates.head? with
    | none => { st with skipped := st.skipped + 1 }
    | some date =>
      match info.teams with
      | t1 :: t2 :: _ =>
        let fp := fingerprintOf info.season date t1 t2 info.venue
        if fp ∈ st.processedMatches then
          { st with duplicates := st.duplicates + 1 }
        else
          let ins := insertMatch st.store (matchRowOf info date t1 t2)
          if ins.2 = 0 then
            { st with store := ins.1, duplicates := st.duplicates + 1 }
          else
            let res := processInnings ins.2 t1 t2 r.innings 1 ins.1
            { store := res.2
              processedMatches := st.processedMatches ++ [fp]
              processed := if res.1 then st.processed + 1 else st.processed
              skipped := st.skipped
              duplicates := st.duplicates }
      | _ => { st with skipped := st.skipped + 1 }

/-- One ingestion run: the per-record loop. Per-record structural errors
never escape the loop, so the enclosing connection context manager
commits at exit; together with the every-50-records batch commit this
makes the final state the committed store. -/
def runIngest (records : List MatchRecord) (st : RunState) : RunState :=
  records.foldl processRecord st

/-- Arithmetic mean of rational values, the SQL AVG over a nonempty
column (over the empty list it yields 0 / 0 = 0, matching the branch
structure of the callers, which never read it then). -/
def avgQ (l : List ℚ) : ℚ := l.sum / (l.length : ℚ)

/-- Classification result: the archetype label and the confidence (the
fixed characteristic and strength tag lists of each class are static
per-class text and are not modelled). -/
structure ClassResult where
  cls : String
  confidence : ℚ
deriving DecidableEq

/-- Rows of classify_bowler's SQL filter: the player's bowling_stats rows
with overs >= 2 (on stored, rounded overs). The row list stands for the
player's rows of the table. -/
def bowlerQualifying (rows : List BowlingRow) : List BowlingRow :=
  rows.filter (fun r => decide ((2 : ℚ) ≤ r.overs))

/-- COUNT(DISTINCT match_id) of the qualifying rows. -/
def bowlerMatches (rows : List BowlingRow) : Nat :=
  ((bowlerQualifying rows).map (fun r => r.matchId)).dedup.length

/-- AVG(economy) of the qualifying rows. -/
def bowlerAvgEconomy (rows : List BowlingRow) : ℚ :=
  avgQ ((bowlerQualifying rows).map (fun r => r.economy))

/-- SUM(wickets) / COUNT(DISTINCT match_id) of the qualifying rows. -/
def bowlerWpm (rows : List BowlingRow) : ℚ :=
  ((bowlerQualifying rows).map (fun r => (r.wickets : ℚ))).sum /
    (bowlerMatches rows : ℚ)

/-- AVG(dots / (overs * 6)) of the qualifying rows, scaled to percent as
in the script. -/
def bowlerDotPct (rows : List BowlingRow) : ℚ :=
  avgQ ((bowlerQualifying rows).map (fun r => (r.dots : ℚ) / (r.overs * 6))) * 100

/-- classify_bowler, player_classifier.py lines 182-299: the sufficiency
gate, then the ordered if/elif rule chain (first match wins). -/
def classifyBowler (rows : List BowlingRow) : ClassResult :=
  if bowlerMatches rows < 10 then { cls := "Insufficient Data", confidence := 0 }
  else if bowlerAvgEconomy rows < 9 ∧ (0.8 : ℚ) ≤ bowlerWpm rows then
    { cls := "Death Specialist", confidence := 0.85 }
  else if (1.3 : ℚ) ≤ bowlerWpm rows then
    { cls := "Wicket Taker", confidence := 0.88 }
  else if bowlerAvgEconomy rows < 7.5 ∧ 45 < bowlerDotPct rows then
    { cls := "Economy Bowler", confidence := 0.82 }
  else if (1 : ℚ) ≤ bowlerWpm rows ∧ bowlerAvgEconomy rows < 8 then
    { cls := "Powerplay Expert", confidence := 0.80 }
  else { cls := "All-Phase Bowler", confidence := 0.70 }

/-- Rows of classify_batsman's SQL filter: the player's batting_stats
rows with balls >= 10. -/
def batsmanQualifying (rows : List BattingRow) : List BattingRow :=
  rows.filter (fun r => decide (10 ≤ r.balls))

/-- COUNT(*) of the qualifying rows. -/
def batsmanInnings (rows : List BattingRow) : Nat := (batsmanQualifying rows).length

/-- AVG(runs) of the qualifying rows. -/
def batsmanAvgRuns (rows : List BattingRow) : ℚ :=
  avgQ ((batsmanQualifying rows).map (fun r => (r.runs : ℚ)))

/-- AVG(strike_rate) of the qualifying rows (the stored strike rates). -/
def batsmanAvgSR (rows : List BattingRow) : ℚ :=
  avgQ ((batsmanQualifying rows).map (fun r => r.strikeRate))

/-- AVG(fours + sixes) of the qualifying rows. -/
def batsmanBoundaries (rows : List BattingRow) : ℚ :=
  avgQ ((batsmanQualifying rows).map (fun r => ((r.fours + r.sixes : Nat) : ℚ)))

/-- AVG(position) of the qualifying rows. -/
def batsmanAvgPos (rows : List BattingRow) : ℚ :=
  avgQ ((batsmanQualifying rows).map (fun r => (r.position : ℚ)))

/-- Share of qualifying innings with at least fifty runs, in percent. -/
def batsmanFiftyRate (rows : List BattingRow) : ℚ :=
  (((batsmanQualifying rows).filter (fun r => decide (50 ≤ r.runs))).length : ℚ) *
    100 / (batsmanInnings rows : ℚ)

/-- classify_batsman, player_classifier.py lines 17-180: the sufficiency
gate, then the ordered if/elif rule chain (first match wins). -/
def classifyBatsman (rows : List BattingRow) : ClassResult :=
  if batsmanInnings rows < 10 then { cls := "Insufficient Data", confidence := 0 }
  else if 145 < batsmanAvgSR rows ∧ 7 < batsmanBoundaries rows then
    { cls := "Power Hitter", confidence := 0.85 }
  else if 5 < batsmanAvgPos rows ∧ 140 < batsmanAvgSR rows ∧ 20 < batsmanAvgRuns rows then
    { cls := "Finisher", confidence := 0.82 }
  else if batsmanAvgPos rows ≤ 2 ∧ 140 < batsmanAvgSR rows then
    { cls := "Aggressive Opener", confidence := 0.88 }
  else if 120 ≤ batsmanAvgSR rows ∧ batsmanAvgSR rows ≤ 135 ∧ 20 < batsmanFiftyRate rows then
    { cls := "Anchor", confidence := 0.80 }
  else if 115 ≤ batsmanAvgSR rows ∧ batsmanAvgSR rows ≤ 130 ∧ 30 < batsmanAvgRuns rows then
    { cls := "Accumulator", confidence := 0.75 }
  else if 3 ≤ batsmanAvgPos rows ∧ batsmanAvgPos rows ≤ 5 ∧ 25 < batsmanAvgRuns rows then
    { cls := "Middle Order Stabilizer", confidence := 0.78 }
  else { cls := "All-rounder Batsman", confidence := 0.65 }

/-- Row predicate of the team-profile record query: the team plays in the
match and the optional season filter holds. -/
def teamMatchPred (t : String) (season : Option Int) (m : MatchRow) : Bool :=
  (decide (m.team1 = t) || decide (m.team2 = t)) &&
    (match season with | none => true | some s => decide (m.season = s))

/-- Matches of the team under the optional season filter. -/
def teamMatchesOf (ms : List MatchRow) (t : String) (season : Option Int) :
    List MatchRow := ms.filter (teamMatchPred t season)

/-- COUNT(*) of the team's matches. -/
def teamMatchesCount (ms : List MatchRow) (t : String) (season : Option Int) : Nat :=
  (teamMatchesOf ms t season).length

/-- SUM(CASE WHEN winner = team THEN 1 ELSE 0 END) of the team's
matches. -/
def teamWins (ms : List MatchRow) (t : String) (season : Option Int) : Nat :=
  ((teamMatchesOf ms t season).filter (fun m => decide (m.winner = some t))).length

/-- Win percentage of get_team_profile, team_analyzer.py line 40: guarded
to 0 when the team has no matches. -/
def teamWinPct (ms : List MatchRow) (t : String) (season : Option Int) : ℚ :=
  if 0 < teamMatchesCount ms t season then
    (teamWins ms t season : ℚ) / (teamMatchesCount ms t season : ℚ) * 100
  else 0

/-- The win percentage as reported in the profile dict (round to two
decimals). -/
def teamWinPctReported (ms : List MatchRow) (t : String) (season : Option Int) : ℚ :=
  round2Q (teamWinPct ms t season)

/-- Matches whose toss the team won (toss_impact's WHERE clause). -/
def tossWinsOf (ms : List MatchRow) (t : String) : List MatchRow :=
  ms.filter (fun m => decide (m.tossWinner = some t))

/-- COUNT(*) of the team's toss wins. -/
def tossWinsCount (ms : List MatchRow) (t : String) : Nat := (tossWinsOf ms t).length

/-- SUM(CASE WHEN winner = team THEN 1 ELSE 0 END) over the toss-won
matches. -/
def tossMatchWins (ms : List MatchRow) (t : String) : Nat :=
  ((tossWinsOf ms t).filter (fun m => decide (m.winner = some t))).length

/-- Win rate after winning the toss, team_analyzer.py line 120: guarded
to 0 when the team won no toss. -/
def tossWinRate (ms : List MatchRow) (t : String) : ℚ :=
  if 0 < tossWinsCount ms t then
    (tossMatchWins ms t : ℚ) / (tossWinsCount ms t : ℚ) * 100
  else 0

/-- The toss win rate as reported (round to two decimals). -/
def tossWinRateReported (ms : List MatchRow) (t : String) : ℚ :=
  round2Q (tossWinRate ms t)

/-- Mean of the sampled metric values (np.mean). -/
def meanQ (l : List ℚ) : ℚ := l.sum / (l.length : ℚ)

/-- Population variance of the sampled metric values (the square of
np.std). -/
def varQ (l : List ℚ) : ℚ :=
  ((l.map (fun x => (x - meanQ l) ^ 2)).sum) / (l.length : ℚ)

/-- Python round(x, 2) over the reals (the consistency value involves a
square root, hence lives in the reals). -/
noncomputable def pyRound2R (x : ℝ) : ℝ := (pyRound (x * 100) : ℝ) / 100

/-- Core of consistency_index, metrics.py lines 43-56, as a function of
the sampled metric values: require at least 10 samples else 0; coefficient
of variation CV = std / mean (np.std is the population standard
deviation); when the mean is positive return round(max(0, 100 - CV*100), 2),
else 0. -/
noncomputable def consistencyOf (values : List ℚ) : ℝ :=
  if values.length < 10 then 0
  else if 0 < meanQ values then
    pyRound2R (max 0 (100 - Real.sqrt ((varQ values : ℚ) : ℝ) /
      ((meanQ values : ℚ) : ℝ) * 100))
  else 0

/-- Sampled values of the batting branch of consistency_index: the
player's batting rows with balls >= 5, given most-recent-first (the query
orders by id DESC), limited to 20, metric column runs. -/
def battingSample (rows : List BattingRow) : List ℚ :=
  ((rows.filter (fun r => decide (5 ≤ r.balls))).take 20).map (fun r => (r.runs : ℚ))

/-- Sampled values of the bowling branch: rows with overs >= 2, most
recent 20, metric column economy. -/
def bowlingSample (rows : List BowlingRow) : List ℚ :=
  ((rows.filter (fun r => decide ((2 : ℚ) ≤ r.overs))).take 20).map (fun r => r.economy)

/-- consistency_index for the batting role. -/
noncomputable def consistencyBatting (rows : List BattingRow) : ℝ :=
  consistencyOf (battingSample rows)

/-- consistency_index for the bowling role. -/
noncomputable def consistencyBowling (rows : List BowlingRow) : ℝ :=
  consistencyOf (bowlingSample rows)

/-- Batting facts of a list of well-formed innings, numbered from the
given innings number: the rows the innings loop of one record inserts. -/
def battingOfAll (mid : Nat) : List Innings → Nat → List BattingRow
  | [], _ => []
  | i :: rest, n => battingFactsOf mid n i ++ battingOfAll mid rest (n + 1)

/-- Bowling facts of a list of well-formed innings, numbered from the
given innings number. -/
def bowlingOfAll (mid : Nat) (t1 t2 : String) : List Innings → Nat → List BowlingRow
  | [], _ => []
  | i :: rest, n => bowlingFactsOf mid t1 t2 n i ++ bowlingOfAll mid t1 t2 rest (n + 1)

/-- Sample innings: one over, one delivery, batter A hits a four off
bowler B. -/
def sampleInnings : Innings :=
  { team := "T1"
    overs := [[{ batter := "A", bowler := "B", runsBatter := 4, runsTotal := 4
                 wickets := [] }]] }

/-- Sample innings for the non-striker run-out scenario: batter A faces
one ball, then is run out at the non-striker end on a ball faced by
batter C. -/
def runOutInnings : Innings :=
  { team := "T1"
    overs := [[{ batter := "A", bowler := "B", runsBatter := 1, runsTotal := 1
                 wickets := [] },
               { batter := "C", bowler := "B", runsBatter := 0, runsTotal := 0
                 wickets := [{ playerOut := "A", kind := "run out" }] }]] }

/-- Sample info block of a valid IPL record. -/
def sampleInfo : MatchInfo :=
  { eventName := "Indian Premier League", season := 2020
    dates := ["2020-04-01"], teams := ["CSK", "MI"]
    venue := "Chepauk", city := "Chennai"
    tossWinner := some "CSK", tossDecision := some "bat"
    winner := some "MI", outcomeBy := Outcome.byRuns 10
    playerOfMatch := some "P" }

/-- Sample record passing every gate, with no innings payload. -/
def sampleRecord : MatchRecord := { info := sampleInfo, innings := [] }

/-- Sample record passing every gate whose second innings value is
structurally malformed: the first innings is processed and inserted, then
the record fails. -/
def sampleBadRecord : MatchRecord :=
  { info := sampleInfo
    innings := [RawInnings.good sampleInnings, RawInnings.malformed] }

/-- One sample bowling row: overs 4, economy 8.2, the given match id and
wicket count. -/
def mkSampleBowl (i w : Nat) : BowlingRow :=
  { matchId := i, player := "B", team := "T", innings := 1, overs := 4
    runsConceded := 33, wickets := w, economy := 8.2, dots := 10 }

/-- Ten qualifying bowling rows in ten distinct matches with average
economy 8.2 and 14 wickets in total, hence 1.4 wickets per match. -/
def sampleBowlerRows : List BowlingRow :=
  [mkSampleBowl 1 2, mkSampleBowl 2 2, mkSampleBowl 3 2, mkSampleBowl 4 2,
   mkSampleBowl 5 1, mkSampleBowl 6 1, mkSampleBowl 7 1, mkSampleBowl 8 1,
   mkSampleBowl 9 1, mkSampleBowl 10 1]

/-- One sample batting row with at least ten balls faced. -/
def mkSampleBat (i : Nat) : BattingRow :=
  { matchId := i, player := "A", team := "T", innings := 1, runs := 30
    balls := 20, fours := 2, sixes := 1, strikeRate := 150, position := 3
    dismissalKind := some "caught", isNotOut := false }

/-- Eight qualifying batting innings, below the ten-innings gate. -/
def sampleBatsmanRows : List BattingRow :=
  [mkSampleBat 1, mkSampleBat 2, mkSampleBat 3, mkSampleBat 4,
   mkSampleBat 5, mkSampleBat 6, mkSampleBat 7, mkSampleBat 8]

/-- The single batting fact emitted for sampleInnings at match id 7,
innings 1: batter A, 4 runs off 1 ball, one four, position 1, not out. -/
def sampleBattingRow : BattingRow :=
  mkBattingRow 7 "T1" 1
    ("A", { runs := 4, balls := 1, fours := 1, sixes := 0, position := 1
            dismissal := none })

/-- Final state after ingesting sampleRecord twice, in two successive
runs of the script over the same store (the second run starts with a
fresh in-memory processed_matches set). -/
def twoRunsFinal : RunState :=
  runIngest [sampleRecord] (newRun (runIngest [sampleRecord] initialRun).store)

/-- Final state after one run over sampleBadRecord, whose second innings
is structurally malformed. -/
def badRunFinal : RunState := runIngest [sampleBadRecord] initialRun

/-! Helper lemmas about the dict-accumulator machinery. -/

theorem lookupKey_append_ne {β : Type} (k k₁ : String) (v : β) (l : List (String × β))
    (h : k₁ ≠ k) : lookupKey k (l ++ [(k₁, v)]) = lookupKey k l := by
  induction l with
  | nil => simp [lookupKey, h]
  | cons p rest ih =>
    cases p with
    | mk a b =>
      by_cases hak : a = k
      · simp [lookupKey, hak]
      · simpa [lookupKey, hak] using ih

theorem lookupKey_append_self {β : Type} (k : String) (v : β) (l : List (String × β))
    (h : lookupKey k l = none) : lookupKey k (l ++ [(k, v)]) = some v := by
  induction l with
  | nil => simp [lookupKey]
  | cons p rest ih =>
    cases p with
    | mk a b =>
      by_cases hak : a = k
      · simp [lookupKey, hak] at h
      · simp only [lookupKey, hak, if_false] at h
        simpa [lookupKey, hak] using ih h

theorem updateFirst_append_of_none {β : Type} (k : String) (f : β → β) (v : β)
    (l : List (String × β)) (h : lookupKey k l = none) :
    updateFirst k f (l ++ [(k, v)]) = l ++ [(k, f v)] := by
  induction l with
  | nil => simp [updateFirst]
  | cons p rest ih =>
    cases p with
    | mk a b =>
      by_cases hak : a = k
      · simp [lookupKey, hak] at h
      · simp only [lookupKey, hak, if_false] at h
        simp [updateFirst, hak, ih h]

theorem lookupKey_updateFirst_ne {β : Type} (k k₁ : String) (f : β → β)
    (l : List (String × β)) (h : k₁ ≠ k) :
    lookupKey k (updateFirst k₁ f l) = lookupKey k l := by
  induction l with
  | nil => simp [updateFirst]
  | cons p rest ih =>
    cases p with
    | mk a b =>
      by_cases hak : a = k₁
      · simp [updateFirst, hak, lookupKey, h]
      · by_cases hbk : a = k
        · simp [updateFirst, hak, lookupKey, hbk, Ne.symm h]
        · simp [updateFirst, hak, lookupKey, hbk, ih]

theorem lookupKey_updateFirst_self {β : Type} (k : String) (f : β → β) (v : β)
    (l : List (String × β)) (h : lookupKey k l = some v) :
    lookupKey k (updateFirst k f l) = some (f v) := by
  induction l with
  | nil => simp [lookupKey] at h
  | cons p rest ih =>
    cases p with
    | mk a b =>
      by_cases hak : a = k
      · simp [lookupKey, hak] at h
        simp [updateFirst, hak, lookupKey, h]
      · simp only [lookupKey, hak, if_false] at h
        simp [updateFirst, hak, lookupKey, ih h]

theorem mem_updateFirst {β : Type} (k : String) (f : β → β) (l : List (String × β))
    (p : String × β) (hp : p ∈ updateFirst k f l) :
    p ∈ l ∨ ∃ q ∈ l, p = (q.1, f q.2) := by
  induction l with
  | nil => simp [updateFirst] at hp
  | cons q rest ih =>
    cases q with
    | mk a b =>
      simp only [updateFirst] at hp
      by_cases hak : a = k
      · rw [if_pos hak] at hp
        rcases List.mem_cons.mp hp with h₁ | h₁
        · exact Or.inr ⟨(a, b), List.mem_cons_self _ _, by simp [h₁]⟩
        · exact Or.inl (List.mem_cons_of_mem _ h₁)
      · rw [if_neg hak] at hp
        rcases List.mem_cons.mp hp with h₁ | h₁
        · exact Or.inl (by simp [h₁])
        · rcases ih h₁ with h₂ | ⟨q, hq, hpq⟩
          · exact Or.inl (List.mem_cons_of_mem _ h₂)
          · exact Or.inr ⟨q, List.mem_cons_of_mem _ hq, hpq⟩

theorem sumBy_append {β : Type} (g : β → Nat) (l l₂ : List (String × β)) :
    sumBy g (l ++ l₂) = sumBy g l + sumBy g l₂ := by
  simp [sumBy]

theorem sumBy_updateFirst {β : Type} (g : β → Nat) (f : β → β) (a : Nat)
    (hf : ∀ v, g (f v) = g v + a) (k : String) (l : List (String × β))
    (h : (lookupKey k l).isSome) : sumBy g (updateFirst k f l) = sumBy g l + a := by
  induction l with
  | nil => simp [lookupKey] at h
  | cons p rest ih =>
    cases p with
    | mk b v =>
      by_cases hbk : b = k
      · simp [updateFirst, hbk, sumBy, hf]; omega
      · simp only [lookupKey, hbk, if_false] at h
        simp only [updateFirst, hbk, if_false]
        have := ih h
        simp only [sumBy, List.map_cons, List.sum_cons] at this ⊢
        omega

theorem stepAccum_of_isSome {β : Type} (k : String) (f : β → β) (fresh : β)
    (l : List (String × β)) (h : (lookupKey k l).isSome) :
    stepAccum k f fresh l = updateFirst k f l := by
  simp [stepAccum, h]

theorem stepAccum_of_none {β : Type} (k : String) (f : β → β) (fresh : β)
    (l : List (String × β)) (h : lookupKey k l = none) :
    stepAccum k f fresh l = l ++ [(k, f fresh)] := by
  simp only [stepAccum, h, Option.isSome_none, Bool.false_eq_true, if_false]
  exact updateFirst_append_of_none k f fresh l h

theorem sumBy_stepAccum {β : Type} (g : β → Nat) (f : β → β) (a : Nat) (fresh : β)
    (hf : ∀ v, g (f v) = g v + a) (hfresh : g fresh = 0) (k : String)
    (l : List (String × β)) : sumBy g (stepAccum k f fresh l) = sumBy g l + a := by
  cases hc : lookupKey k l with
  | some v =>
    rw [stepAccum_of_isSome k f fresh l (by simp [hc])]
    exact sumBy_updateFirst g f a hf k l (by simp [hc])
  | none =>
    rw [stepAccum_of_none k f fresh l hc]
    simp [sumBy_append, sumBy, hf, hfresh]

theorem mem_stepAccum {β : Type} (k : String) (f : β → β) (fresh : β)
    (l : List (String × β)) (p : String × β) (hp : p ∈ stepAccum k f fresh l) :
    p ∈ l ∨ (∃ q ∈ l, p = (q.1, f q.2)) ∨ p = (k, f fresh) := by
  cases hc : lookupKey k l with
  | some v =>
    rw [stepAccum_of_isSome k f fresh l (by simp [hc])] at hp
    rcases mem_updateFirst k f l p hp with h | h
    · exact Or.inl h
    · exact Or.inr (Or.inl h)
  | none =>
    rw [stepAccum_of_none k f fresh l hc] at hp
    rcases List.mem_append.mp hp with h | h
    · exact Or.inl h
    · exact Or.inr (Or.inr (by simpa using h))

theorem forall_stepAccum {β : Type} {P : β → Prop} (k : String) (f : β → β)
    (fresh : β) (l : List (String × β)) (hl : ∀ p ∈ l, P p.2)
    (hf : ∀ v, P (f v)) : ∀ p ∈ stepAccum k f fresh l, P p.2 := by
  intro p hp
  rcases mem_stepAccum k f fresh l p hp with h | ⟨q, _, hpq⟩ | h
  · exact hl p h
  · rw [hpq]; exact hf q.2
  · rw [h]; exact hf fresh

theorem keys_stepAccum {β : Type} (k : String) (f : β → β) (fresh : β)
    (l : List (String × β)) (p : String × β) (hp : p ∈ stepAccum k f fresh l) :
    p.1 = k ∨ ∃ q ∈ l, p.1 = q.1 := by
  rcases mem_stepAccum k f fresh l p hp with h | ⟨q, hq, hpq⟩ | h
  · exact Or.inr ⟨p, h, rfl⟩
  · exact Or.inr ⟨q, hq, by rw [hpq]⟩
  · exact Or.inl (by rw [h])

theorem lookupKey_stepAccum_ne {β : Type} (k k₁ : String) (f : β → β) (fresh : β)
    (l : List (String × β)) (h : k₁ ≠ k) :
    lookupKey k (stepAccum k₁ f fresh l) = lookupKey k l := by
  cases hc : lookupKey k₁ l with
  | some v =>
    rw [stepAccum_of_isSome k₁ f fresh l (by simp [hc])]
    exact lookupKey_updateFirst_ne k k₁ f l h
  | none =>
    rw [stepAccum_of_none k₁ f fresh l hc]
    exact lookupKey_append_ne k k₁ (f fresh) l h

theorem lookupKey_stepAccum_some {β : Type} (k : String) (f : β → β) (fresh : β)
    (l : List (String × β)) (v : β) (h : lookupKey k l = some v) :
    lookupKey k (stepAccum k f fresh l) = some (f v) := by
  rw [stepAccum_of_isSome k f fresh l (by simp [h])]
  exact lookupKey_updateFirst_self k f v l h

theorem lookupKey_stepAccum_none {β : Type} (k : String) (f : β → β) (fresh : β)
    (l : List (String × β)) (h : lookupKey k l = none) :
    lookupKey k (stepAccum k f fresh l) = some (f fresh) := by
  rw [stepAccum_of_none k f fresh l h]
  exact lookupKey_append_self k (f fresh) l h

theorem isSome_stepAccum {β : Type} (k k₁ : String) (f : β → β) (fresh : β)
    (l : List (String × β)) (h : (lookupKey k l).isSome) :
    (lookupKey k (stepAccum k₁ f fresh l)).isSome := by
  by_cases hk : k₁ = k
  · subst hk
    cases hc : lookupKey k₁ l with
    | some v => simp [lookupKey_stepAccum_some k₁ f fresh l v hc]
    | none => simp [hc] at h
  · rw [lookupKey_stepAccum_ne k k₁ f fresh l hk]; exact h

theorem isSome_stepAccum_self {β : Type} (k : String) (f : β → β) (fresh : β)
    (l : List (String × β)) : (lookupKey k (stepAccum k f fresh l)).isSome := by
  cases hc : lookupKey k l with
  | some v => simp [lookupKey_stepAccum_some k f fresh l v hc]
  | none => simp [lookupKey_stepAccum_none k f fresh l hc]

theorem lookupKey_mem {β : Type} (k : String) (l : List (String × β)) (v : β)
    (h : lookupKey k l = some v) : (k, v) ∈ l := by
  induction l with
  | nil => simp [lookupKey] at h
  | cons p rest ih =>
    cases p with
    | mk a b =>
      by_cases hak : a = k
      · simp [lookupKey, hak] at h
        simp [hak, h]
      · simp only [lookupKey, hak, if_false] at h
        simp [ih h]

/-! Helper lemmas about the Python round model. -/

theorem pyRound_nonneg {α : Type} [LinearOrderedField α] [FloorRing α]
    (x : α) (h : 0 ≤ x) : 0 ≤ pyRound x := by
  have hf : (0 : ℤ) ≤ ⌊x⌋ := Int.floor_nonneg.mpr h
  unfold pyRound
  split
  · split <;> omega
  · rw [round_eq]
    exact Int.floor_nonneg.mpr (by linarith)

theorem pyRound_le {α : Type} [LinearOrderedField α] [FloorRing α]
    (x : α) (n : ℤ) (h : x ≤ n) : pyRound x ≤ n := by
  unfold pyRound
  split
  · next htie =>
    have hlt : (⌊x⌋ : α) < (n : α) := by linarith
    have hzn : ⌊x⌋ < n := by exact_mod_cast hlt
    split <;> omega
  · rw [round_eq]
    have : ⌊x + 1 / 2⌋ < n + 1 := by
      rw [Int.floor_lt]
      push_cast
      linarith
    omega

theorem pyRound_one_le {α : Type} [LinearOrderedField α] [FloorRing α]
    (x : α) (h : 1 ≤ x) : 1 ≤ pyRound x := by
  have hf : (1 : ℤ) ≤ ⌊x⌋ := Int.le_floor.mpr (by exact_mod_cast h)
  unfold pyRound
  split
  · split <;> omega
  · rw [round_eq]
    exact Int.le_floor.mpr (by push_cast; linarith)

/-! Invariants of the per-innings accumulation folds. -/

theorem batAccOf_eq (i : Innings) :
    batAccOf i = (Innings.deliveries i).foldl batStep { stats := [], pos := 1 } := by
  simp [batAccOf, Innings.deliveries, List.foldl_flatten]

theorem bowlAccOf_eq (i : Innings) :
    bowlAccOf i = (Innings.deliveries i).foldl bowlStep [] := by
  simp [bowlAccOf, Innings.deliveries, List.foldl_flatten]

theorem dismissalAfter_eq (d : Delivery) (init : Option String)
    (h : ∀ w ∈ d.wickets, w.playerOut ≠ d.batter) : dismissalAfter d init = init := by
  unfold dismissalAfter
  have haux : ∀ ws : List Wicket, (∀ w ∈ ws, w.playerOut ≠ d.batter) →
      ∀ ini : Option String,
      ws.foldl (fun acc w => if w.playerOut = d.batter then some w.kind else acc) ini
        = ini := by
    intro ws
    induction ws with
    | nil => intro _ ini; rfl
    | cons w rest ih =>
      intro hw ini
      simp only [List.foldl_cons]
      rw [if_neg (hw w (List.mem_cons_self _ _))]
      exact ih (fun w₂ hm => hw w₂ (List.mem_cons_of_mem _ hm)) ini
  exact haux d.wickets h init

theorem batFold_sumRuns (ds : List Delivery) (acc : BatAcc) :
    sumBy (fun s => s.runs) (ds.foldl batStep acc).stats
      = sumBy (fun s => s.runs) acc.stats + (ds.map (fun d => d.runsBatter)).sum := by
  induction ds generalizing acc with
  | nil => simp
  | cons d rest ih =>
    simp only [List.foldl_cons, List.map_cons, List.sum_cons]
    rw [ih]
    have hstep : sumBy (fun s => s.runs) (batStep acc d).stats
        = sumBy (fun s => s.runs) acc.stats + d.runsBatter :=
      sumBy_stepAccum (fun s => s.runs) (applyBatDelivery d) d.runsBatter
        (freshBat acc.pos) (fun v => rfl) rfl d.batter acc.stats
    rw [hstep]
    omega

theorem batFold_balls_pos (ds : List Delivery) (acc : BatAcc)
    (h : ∀ p ∈ acc.stats, 0 < p.2.balls) :
    ∀ p ∈ (ds.foldl batStep acc).stats, 0 < p.2.balls := by
  induction ds generalizing acc with
  | nil => exact h
  | cons d rest ih =>
    simp only [List.foldl_cons]
    apply ih
    intro p hp
    exact @forall_stepAccum BatStats (fun v => 0 < v.balls) d.batter (applyBatDelivery d)
      (freshBat acc.pos) acc.stats h (fun v => Nat.succ_pos v.balls) p hp

theorem batFold_keys (ds : List Delivery) (acc : BatAcc) (p : String × BatStats)
    (hp : p ∈ (ds.foldl batStep acc).stats) :
    (∃ q ∈ acc.stats, p.1 = q.1) ∨ ∃ d ∈ ds, p.1 = d.batter := by
  induction ds generalizing acc with
  | nil => exact Or.inl ⟨p, hp, rfl⟩
  | cons d rest ih =>
    simp only [List.foldl_cons] at hp
    rcases ih (batStep acc d) hp with ⟨q, hq, hpq⟩ | ⟨d₂, hd₂, hpd⟩
    · rcases keys_stepAccum d.batter (applyBatDelivery d) (freshBat acc.pos)
        acc.stats q hq with h₁ | ⟨q₂, hq₂, hqq⟩
      · exact Or.inr ⟨d, List.mem_cons_self _ _, by rw [hpq, h₁]⟩
      · exact Or.inl ⟨q₂, hq₂, by rw [hpq, hqq]⟩
    · exact Or.inr ⟨d₂, List.mem_cons_of_mem _ hd₂, hpd⟩

theorem batFold_faced (p : String) (ds : List Delivery) (acc : BatAcc)
    (h : (∃ d ∈ ds, d.batter = p) ∨ (lookupKey p acc.stats).isSome) :
    (lookupKey p ((ds.foldl batStep acc).stats)).isSome := by
  induction ds generalizing acc with
  | nil =>
    rcases h with ⟨d, hd, _⟩ | h₂
    · simp at hd
    · exact h₂
  | cons d rest ih =>
    simp only [List.foldl_cons]
    apply ih
    rcases h with ⟨d₂, hd₂, hbat⟩ | hsome
    · rcases List.mem_cons.mp hd₂ with h₁ | h₁
      · right
        subst h₁
        show (lookupKey p (stepAccum d₂.batter (applyBatDelivery d₂)
          (freshBat acc.pos) acc.stats)).isSome
        rw [hbat]
        exact isSome_stepAccum_self p _ _ _
      · exact Or.inl ⟨d₂, h₁, hbat⟩
    · right
      exact isSome_stepAccum p d.batter _ _ _ hsome

theorem batFold_dismissal (p : String) (ds : List Delivery) (acc : BatAcc)
    (hds : ∀ d ∈ ds, ∀ w ∈ d.wickets, w.playerOut = p → d.batter ≠ p)
    (hacc : ∀ s, lookupKey p acc.stats = some s → s.dismissal = none) :
    ∀ s, lookupKey p ((ds.foldl batStep acc).stats) = some s → s.dismissal = none := by
  induction ds generalizing acc with
  | nil => exact hacc
  | cons d rest ih =>
    simp only [List.foldl_cons]
    apply ih
    · intro d₂ hd₂ w hw hpo
      exact hds d₂ (List.mem_cons_of_mem _ hd₂) w hw hpo
    · intro s hs
      simp only [batStep] at hs
      by_cases hb : d.batter = p
      · have hw : ∀ w ∈ d.wickets, w.playerOut ≠ d.batter := by
          intro w hw₂ heq
          exact (hds d (List.mem_cons_self _ _) w hw₂ (by rw [heq, hb])) hb
        cases hc : lookupKey p acc.stats with
        | some s₀ =>
          rw [hb] at hs
          rw [lookupKey_stepAccum_some p (applyBatDelivery d) (freshBat acc.pos)
            acc.stats s₀ hc] at hs
          have hs₂ : s = applyBatDelivery d s₀ := (Option.some.inj hs).symm
          rw [hs₂]
          show dismissalAfter d s₀.dismissal = none
          rw [dismissalAfter_eq d s₀.dismissal hw]
          exact hacc s₀ hc
        | none =>
          rw [hb] at hs
          rw [lookupKey_stepAccum_none p (applyBatDelivery d) (freshBat acc.pos)
            acc.stats hc] at hs
          have hs₂ : s = applyBatDelivery d (freshBat acc.pos) := (Option.some.inj hs).symm
          rw [hs₂]
          show dismissalAfter d (freshBat acc.pos).dismissal = none
          rw [dismissalAfter_eq d (freshBat acc.pos).dismissal hw]
          rfl
      · rw [lookupKey_stepAccum_ne p d.batter (applyBatDelivery d) (freshBat acc.pos)
          acc.stats hb] at hs
        exact hacc s hs

theorem bowlFold_balls_pos (ds : List Delivery) (acc : List (String × BowlStats))
    (h : ∀ p ∈ acc, 0 < p.2.balls) :
    ∀ p ∈ ds.foldl bowlStep acc, 0 < p.2.balls := by
  induction ds generalizing acc with
  | nil => exact h
  | cons d rest ih =>
    simp only [List.foldl_cons]
    apply ih
    intro p hp
    exact @forall_stepAccum BowlStats (fun v => 0 < v.balls) d.bowler (applyBowlDelivery d)
      freshBowl acc h (fun v => Nat.succ_pos v.balls) p hp

theorem bowlFold_keys (ds : List Delivery) (acc : List (String × BowlStats))
    (p : String × BowlStats) (hp : p ∈ ds.foldl bowlStep acc) :
    (∃ q ∈ acc, p.1 = q.1) ∨ ∃ d ∈ ds, p.1 = d.bowler := by
  induction ds generalizing acc with
  | nil => exact Or.inl ⟨p, hp, rfl⟩
  | cons d rest ih =>
    simp only [List.foldl_cons] at hp
    rcases ih (bowlStep acc d) hp with ⟨q, hq, hpq⟩ | ⟨d₂, hd₂, hpd⟩
    · rcases keys_stepAccum d.bowler (applyBowlDelivery d) freshBowl
        acc q hq with h₁ | ⟨q₂, hq₂, hqq⟩
      · exact Or.inr ⟨d, List.mem_cons_self _ _, by rw [hpq, h₁]⟩
      · exact Or.inl ⟨q₂, hq₂, by rw [hpq, hqq]⟩
    · exact Or.inr ⟨d₂, List.mem_cons_of_mem _ hd₂, hpd⟩

/-- Overs of a bowling fact are positive as soon as one ball was bowled:
round(balls / 6, 1) of a positive ball count is at least one tenth. -/
theorem round1Q_sixth_pos (b : Nat) (hb : 0 < b) : 0 < round1Q ((b : ℚ) / 6) := by
  have hb₁ : (1 : ℚ) ≤ (b : ℚ) := by exact_mod_cast hb
  have h1 : (1 : ℚ) ≤ (b : ℚ) / 6 * 10 := by linarith
  have h2 : (1 : ℤ) ≤ pyRound ((b : ℚ) / 6 * 10) := pyRound_one_le _ h1
  have h3 : (1 : ℚ) ≤ (pyRound ((b : ℚ) / 6 * 10) : ℚ) := by exact_mod_cast h2
  unfold round1Q
  linarith

/-- C4: for every ingested match and every innings of it, the sum of the
runs fields over the BattingFacts emitted for that innings equals the sum
of the per-delivery runs-off-bat values over all deliveries of that
innings. -/
theorem batting_runs_completeness (matchId inn : Nat) (i : Innings) :
    ((battingFactsOf matchId inn i).map (fun f => f.runs)).sum
      = ((Innings.deliveries i).map (fun d => d.runsBatter)).sum := by
  have hpos : ∀ p ∈ (batAccOf i).stats, 0 < p.2.balls := by
    rw [batAccOf_eq]
    exact batFold_balls_pos _ _ (by intro p hp; simp at hp)
  have hfil : (batAccOf i).stats.filter (fun p => decide (0 < p.2.balls))
      = (batAccOf i).stats :=
    List.filter_eq_self.mpr (fun p hp => by simpa using hpos p hp)
  unfold battingFactsOf
  rw [hfil, List.map_map]
  have hmap : ((fun f : BattingRow => f.runs) ∘ mkBattingRow matchId i.team inn)
      = fun p : String × BatStats => p.2.runs := rfl
  rw [hmap]
  have hsum := batFold_sumRuns (Innings.deliveries i) { stats := [], pos := 1 }
  rw [batAccOf_eq]
  simpa [sumBy] using hsum

/-- C5: every BattingFact emitted by ingestion stores the strike rate
runs / balls * 100 computed from that fact's own runs and balls. -/
theorem batting_strike_rate_identity (matchId inn : Nat) (i : Innings)
    (f : BattingRow) (hf : f ∈ battingFactsOf matchId inn i) :
    f.strikeRate = (f.runs : ℚ) / (f.balls : ℚ) * 100 := by
  unfold battingFactsOf at hf
  rcases List.mem_map.mp hf with ⟨p, _, hfp⟩
  rw [← hfp]
  rfl

/-- Witness for C5 on a concrete innings. -/
theorem batting_strike_rate_identity_witness :
    sampleBattingRow ∈ battingFactsOf 7 1 sampleInnings ∧
    sampleBattingRow.strikeRate
      = (sampleBattingRow.runs : ℚ) / (sampleBattingRow.balls : ℚ) * 100 :=
  ⟨List.mem_cons_self _ _,
   batting_strike_rate_identity 7 1 sampleInnings sampleBattingRow
     (List.mem_cons_self _ _)⟩

/-- C6: every emitted BattingFact has balls > 0 and every emitted
BowlingFact has overs > 0; a player who faces no delivery of the innings
appears in no batting fact, and a bowler who bowls no delivery appears in
no bowling fact. -/
theorem facts_positive (matchId inn : Nat) (t1 t2 : String) (i : Innings) :
    (∀ f ∈ battingFactsOf matchId inn i, 0 < f.balls) ∧
    (∀ g ∈ bowlingFactsOf matchId t1 t2 inn i, 0 < g.overs) ∧
    (∀ p : String, (∀ d ∈ Innings.deliveries i, d.batter ≠ p) →
      ∀ f ∈ battingFactsOf matchId inn i, f.player ≠ p) ∧
    (∀ p : String, (∀ d ∈ Innings.deliveries i, d.bowler ≠ p) →
      ∀ g ∈ bowlingFactsOf matchId t1 t2 inn i, g.player ≠ p) := by
  refine ⟨?_, ?_, ?_, ?_⟩
  · intro f hf
    unfold battingFactsOf at hf
    rcases List.mem_map.mp hf with ⟨p, hp, hfp⟩
    rcases List.mem_filter.mp hp with ⟨_, hpred⟩
    have hb : 0 < p.2.balls := by simpa using hpred
    rw [← hfp]
    exact hb
  · intro g hg
    unfold bowlingFactsOf at hg
    rcases List.mem_map.mp hg with ⟨p, hp, hgp⟩
    rcases List.mem_filter.mp hp with ⟨_, hpred⟩
    have hb : 0 < p.2.balls := by simpa using hpred
    rw [← hgp]
    exact round1Q_sixth_pos p.2.balls hb
  · intro p hno f hf
    unfold battingFactsOf at hf
    rcases List.mem_map.mp hf with ⟨q, hq, hfq⟩
    rcases List.mem_filter.mp hq with ⟨hmem, _⟩
    rw [batAccOf_eq] at hmem
    rcases batFold_keys _ _ q hmem with ⟨q₂, hq₂, _⟩ | ⟨d, hd, hqd⟩
    · simp at hq₂
    · rw [← hfq]
      show q.1 ≠ p
      rw [hqd]
      exact hno d hd
  · intro p hno g hg
    unfold bowlingFactsOf at hg
    rcases List.mem_map.mp hg with ⟨q, hq, hgq⟩
    rcases List.mem_filter.mp hq with ⟨hmem, _⟩
    rw [bowlAccOf_eq] at hmem
    rcases bowlFold_keys _ _ q hmem with ⟨q₂, hq₂, _⟩ | ⟨d, hd, hqd⟩
    · simp at hq₂
    · rw [← hgq]
      show q.1 ≠ p
      rw [hqd]
      exact hno d hd

/-- Witness for C6 on a concrete innings. -/
theorem facts_positive_witness :
    0 < sampleBattingRow.balls ∧
    (∀ g ∈ bowlingFactsOf 7 "T1" "T2" 1 sampleInnings, 0 < g.overs) ∧
    (∀ f ∈ battingFactsOf 7 1 sampleInnings, f.player ≠ "Z") :=
  ⟨(facts_positive 7 1 "T1" "T2" sampleInnings).1 sampleBattingRow
     (List.mem_cons_self _ _),
   (facts_positive 7 1 "T1" "T2" sampleInnings).2.1,
   (facts_positive 7 1 "T1" "T2" sampleInnings).2.2.1 "Z" (by decide)⟩

/-- C10: a batter dismissed only on deliveries they are not facing (such
as a non-striker run out) is emitted with a null dismissal kind and the
not-out flag set, as long as they faced at least one ball. -/
theorem nonstriker_dismissal_invisible (matchId inn : Nat) (i : Innings) (p : String)
    (hfaced : ∃ d ∈ Innings.deliveries i, d.batter = p)
    (hnost : ∀ d ∈ Innings.deliveries i, ∀ w ∈ d.wickets,
      w.playerOut = p → d.batter ≠ p) :
    ∃ f ∈ battingFactsOf matchId inn i,
      f.player = p ∧ f.dismissalKind = none ∧ f.isNotOut = true := by
  have hsome : (lookupKey p (batAccOf i).stats).isSome := by
    rw [batAccOf_eq]
    exact batFold_faced p _ _ (Or.inl hfaced)
  rcases Option.isSome_iff_exists.mp hsome with ⟨s, hs⟩
  have hdis : s.dismissal = none := by
    rw [batAccOf_eq] at hs
    exact batFold_dismissal p _ _ hnost (by intro s₂ hs₂; simp [lookupKey] at hs₂) s hs
  have hmem : (p, s) ∈ (batAccOf i).stats := lookupKey_mem p _ s hs
  have hballs : 0 < s.balls := by
    have hpos : ∀ q ∈ (batAccOf i).stats, 0 < q.2.balls := by
      rw [batAccOf_eq]
      exact batFold_balls_pos _ _ (by intro q hq; simp at hq)
    exact hpos (p, s) hmem
  refine ⟨mkBattingRow matchId i.team inn (p, s), ?_, rfl, ?_, ?_⟩
  · unfold battingFactsOf
    exact List.mem_map_of_mem _
      (List.mem_filter.mpr ⟨hmem, by simpa using hballs⟩)
  · show s.dismissal = none
    exact hdis
  · show s.dismissal.isNone = true
    rw [hdis]
    rfl

/-- Witness for C10: batter A faces one ball and is then run out at the
non-striker end on a ball faced by batter C. -/
theorem nonstriker_dismissal_invisible_witness :
    ∃ f ∈ battingFactsOf 3 1 runOutInnings,
      f.player = "A" ∧ f.dismissalKind = none ∧ f.isNotOut = true :=
  nonstriker_dismissal_invisible 3 1 runOutInnings "A" (by decide) (by decide)

/-- Round of zero is zero. -/
theorem round2Q_zero : round2Q 0 = 0 := by
  have h : pyRound (0 : ℚ) = 0 := by
    unfold pyRound
    norm_num
  simp [round2Q, h]

/-- C8: a player with fewer than 10 qualifying innings gets the
Insufficient Data sentinel with confidence 0 from classify_batsman. -/
theorem batsman_insufficient_sentinel (rows : List BattingRow)
    (h : batsmanInnings rows < 10) :
    classifyBatsman rows = { cls := "Insufficient Data", confidence := 0 } := by
  unfold classifyBatsman
  rw [if_pos h]

/-- Witness for C8: eight qualifying innings. -/
theorem batsman_insufficient_sentinel_witness :
    batsmanInnings sampleBatsmanRows < 10 ∧
    classifyBatsman sampleBatsmanRows
      = { cls := "Insufficient Data", confidence := 0 } :=
  ⟨by decide, batsman_insufficient_sentinel sampleBatsmanRows (by decide)⟩

/-- C9: the team-profile win percentage is 0 for a team with no matches,
and the toss-impact win rate is 0 for a team with no toss wins (both
total functions, no division-by-zero failure is possible). -/
theorem team_percentages_zero_guard (ms : List MatchRow) (t : String)
    (season : Option Int) (h1 : teamMatchesCount ms t season = 0)
    (h2 : tossWinsCount ms t = 0) :
    teamWinPctReported ms t season = 0 ∧ tossWinRateReported ms t = 0 := by
  constructor
  · unfold teamWinPctReported teamWinPct
    rw [if_neg (by omega)]
    exact round2Q_zero
  · unfold tossWinRateReported tossWinRate
    rw [if_neg (by omega)]
    exact round2Q_zero

/-- Witness for C9 on the empty store. -/
theorem team_percentages_zero_guard_witness :
    teamMatchesCount [] "X" none = 0 ∧ tossWinsCount [] "X" = 0 ∧
    (teamWinPctReported [] "X" none = 0 ∧ tossWinRateReported [] "X" = 0) :=
  ⟨by decide, by decide,
   team_percentages_zero_guard [] "X" none (by decide) (by decide)⟩

/-- The ten sample bowling rows all pass the overs filter. -/
theorem sampleBowler_qualifying :
    bowlerQualifying sampleBowlerRows = sampleBowlerRows := by
  unfold bowlerQualifying
  apply List.filter_eq_self.mpr
  intro r hr
  fin_cases hr <;> decide

/-- The ten sample bowling rows span ten distinct matches. -/
theorem sampleBowler_matches : bowlerMatches sampleBowlerRows = 10 := by decide

/-- Average economy of the sample bowler is 8.2. -/
theorem sampleBowler_economy : bowlerAvgEconomy sampleBowlerRows = 8.2 := by
  unfold bowlerAvgEconomy
  rw [sampleBowler_qualifying]
  norm_num [avgQ, sampleBowlerRows, mkSampleBowl]

/-- Wickets per match of the sample bowler is 1.4. -/
theorem sampleBowler_wpm : bowlerWpm sampleBowlerRows = 1.4 := by
  unfold bowlerWpm
  rw [sampleBowler_qualifying, sampleBowler_matches]
  norm_num [sampleBowlerRows, mkSampleBowl]

/-- C3 counterexample: a bowler passing the gate with average economy 8.2
and 1.4 wickets per match is classified Death Specialist (0.85), not
Wicket Taker (0.88): the economy < 9 and wpm >= 0.8 rule is evaluated
first in the if/elif chain and matches. -/
theorem bowler_example_not_wicket_taker :
    10 ≤ bowlerMatches sampleBowlerRows ∧
    bowlerAvgEconomy sampleBowlerRows = 8.2 ∧
    bowlerWpm sampleBowlerRows = 1.4 ∧
    classifyBowler sampleBowlerRows ≠ { cls := "Wicket Taker", confidence := 0.88 } ∧
    classifyBowler sampleBowlerRows = { cls := "Death Specialist", confidence := 0.85 } := by
  have hc : classifyBowler sampleBowlerRows
      = { cls := "Death Specialist", confidence := 0.85 } := by
    unfold classifyBowler
    rw [if_neg (by rw [sampleBowler_matches]; omega)]
    rw [if_pos ⟨by rw [sampleBowler_economy]; norm_num,
                by rw [sampleBowler_wpm]; norm_num⟩]
  refine ⟨by rw [sampleBowler_matches], sampleBowler_economy, sampleBowler_wpm, ?_, hc⟩
  rw [hc]
  simp

/-- C3 amended: a bowler whose qualifying aggregates pass the gate with
average economy 8.2 and 1.4 wickets per match is classified
Death Specialist with confidence 0.85, because the economy < 9 and
wpm >= 0.8 rule fires before the wpm >= 1.3 rule. -/
theorem bowler_economy82_wpm14_death (rows : List BowlingRow)
    (hm : 10 ≤ bowlerMatches rows) (he : bowlerAvgEconomy rows = 8.2)
    (hw : bowlerWpm rows = 1.4) :
    classifyBowler rows = { cls := "Death Specialist", confidence := 0.85 } := by
  unfold classifyBowler
  rw [if_neg (by omega)]
  rw [if_pos ⟨by rw [he]; norm_num, by rw [hw]; norm_num⟩]

/-- Witness for the amended C3. -/
theorem bowler_economy82_wpm14_death_witness :
    10 ≤ bowlerMatches sampleBowlerRows ∧
    bowlerAvgEconomy sampleBowlerRows = 8.2 ∧
    bowlerWpm sampleBowlerRows = 1.4 ∧
    classifyBowler sampleBowlerRows
      = { cls := "Death Specialist", confidence := 0.85 } :=
  ⟨by rw [sampleBowler_matches], sampleBowler_economy, sampleBowler_wpm,
   bowler_economy82_wpm14_death sampleBowlerRows
     (by rw [sampleBowler_matches]) sampleBowler_economy sampleBowler_wpm⟩

/-- Round to two decimals stays inside [0, 100]. -/
theorem pyRound2R_bounds (x : ℝ) (h0 : 0 ≤ x) (h1 : x ≤ 100) :
    0 ≤ pyRound2R x ∧ pyRound2R x ≤ 100 := by
  have hr0 : (0 : ℤ) ≤ pyRound (x * 100) :=
    pyRound_nonneg _ (by nlinarith)
  have hr1 : pyRound (x * 100) ≤ (10000 : ℤ) :=
    pyRound_le _ 10000 (by push_cast; nlinarith)
  unfold pyRound2R
  constructor
  · have hc : (0 : ℝ) ≤ (pyRound (x * 100) : ℝ) := by exact_mod_cast hr0
    linarith
  · have hc : ((pyRound (x * 100) : ℝ)) ≤ 10000 := by exact_mod_cast hr1
    linarith

/-- The consistency value is bounded for every sample list. -/
theorem consistencyOf_bounds (values : List ℚ) :
    0 ≤ consistencyOf values ∧ consistencyOf values ≤ 100 := by
  unfold consistencyOf
  split
  · norm_num
  · split
    · next hmean =>
      have hc : 0 ≤ Real.sqrt ((varQ values : ℚ) : ℝ) /
          ((meanQ values : ℚ) : ℝ) * 100 := by
        apply mul_nonneg
        · apply div_nonneg (Real.sqrt_nonneg _)
          have hm : (0 : ℝ) < ((meanQ values : ℚ) : ℝ) := by exact_mod_cast hmean
          linarith
        · norm_num
      have hy0 : 0 ≤ max 0 (100 - Real.sqrt ((varQ values : ℚ) : ℝ) /
          ((meanQ values : ℚ) : ℝ) * 100) := le_max_left _ _
      have hy1 : max 0 (100 - Real.sqrt ((varQ values : ℚ) : ℝ) /
          ((meanQ values : ℚ) : ℝ) * 100) ≤ 100 :=
        max_le (by norm_num) (by linarith)
      exact pyRound2R_bounds _ hy0 hy1
    · norm_num

/-- Fewer than ten samples give consistency zero. -/
theorem consistencyOf_zero_of_small (values : List ℚ) (h : values.length < 10) :
    consistencyOf values = 0 := by
  unfold consistencyOf
  rw [if_pos h]

/-- C7: consistency_index always lies in [0, 100], and is 0 whenever
fewer than 10 qualifying facts exist, for both roles. -/
theorem consistency_index_bounds (bat : List BattingRow) (bowl : List BowlingRow) :
    (0 ≤ consistencyBatting bat ∧ consistencyBatting bat ≤ 100) ∧
    (0 ≤ consistencyBowling bowl ∧ consistencyBowling bowl ≤ 100) ∧
    ((bat.filter (fun r => decide (5 ≤ r.balls))).length < 10 →
      consistencyBatting bat = 0) ∧
    ((bowl.filter (fun r => decide ((2 : ℚ) ≤ r.overs))).length < 10 →
      consistencyBowling bowl = 0) := by
  refine ⟨consistencyOf_bounds _, consistencyOf_bounds _, ?_, ?_⟩
  · intro h
    apply consistencyOf_zero_of_small
    unfold battingSample
    rw [List.length_map, List.length_take]
    omega
  · intro h
    apply consistencyOf_zero_of_small
    unfold bowlingSample
    rw [List.length_map, List.length_take]
    omega

/-- Witness for C7 on the empty fact lists. -/
theorem consistency_index_bounds_witness :
    (0 ≤ consistencyBatting [] ∧ consistencyBatting [] ≤ 100) ∧
    consistencyBatting [] = 0 :=
  ⟨(consistency_index_bounds [] []).1,
   (consistency_index_bounds [] []).2.2.1 (by decide)⟩

/-- C1: ingesting the same source record in two successive runs over the
same store yields two Match rows with the same fixture fingerprint
(season, date, team1, team2, venue): the in-memory dedup set is per-run
and the matches table has no unique constraint for INSERT OR IGNORE to
act on, so the store check never skips. -/
theorem ingestion_cross_run_duplicate :
    twoRunsFinal.store.matchRows.length = 2 ∧
    ∃ m₁ ∈ twoRunsFinal.store.matchRows, ∃ m₂ ∈ twoRunsFinal.store.matchRows,
      m₁.matchId ≠ m₂.matchId ∧ m₁.season = m₂.season ∧
      m₁.matchDate = m₂.matchDate ∧ m₁.team1 = m₂.team1 ∧
      m₁.team2 = m₂.team2 ∧ m₁.venue = m₂.venue := by decide

/-- C2 counterexample: a record that raises a structural error after its
match row and its first innings facts were inserted leaves those rows
visible in the committed store: the record is not counted processed, yet
one match row, one batting row and one bowling row of it are in the
store. -/
theorem partial_record_rows_leak :
    badRunFinal.processed = 0 ∧
    badRunFinal.store.matchRows.length = 1 ∧
    badRunFinal.store.batting.length = 1 ∧
    badRunFinal.store.bowling.length = 1 := by decide

/-- Innings loop outcome when a malformed innings follows well-formed
ones: the facts of the well-formed prefix are inserted, then the record
fails with the store as mutated so far. -/
theorem processInnings_malformed (mid : Nat) (t1 t2 : String) (pre : List Innings)
    (rest : List RawInnings) (n : Nat) (st : Store) :
    processInnings mid t1 t2 (pre.map RawInnings.good ++ RawInnings.malformed :: rest) n st
      = (false, { st with batting := st.batting ++ battingOfAll mid pre n
                          bowling := st.bowling ++ bowlingOfAll mid t1 t2 pre n }) := by
  induction pre generalizing n st with
  | nil => simp [processInnings, battingOfAll, bowlingOfAll]
  | cons i pre ih =>
    simp only [List.map_cons, List.cons_append, processInnings, List.append_eq]
    rw [ih]
    simp [battingOfAll, bowlingOfAll, List.append_assoc]

/-- C2 amended: when a record passing the validation gates raises a
structural error partway through its innings (here: after a prefix of
well-formed innings), the rows already inserted for it remain in the
store and are committed with the enclosing connection; the record is not
counted processed and only the per-record control flow (catch and
continue) is guaranteed, not atomicity. -/
theorem processRecord_error_keeps_partial_writes
    (st : RunState) (info : MatchInfo) (date : String) (ds ts : List String)
    (t1 t2 : String) (pre : List Innings) (rest : List RawInnings)
    (r : MatchRecord)
    (hr : r = { info := info
                innings := pre.map RawInnings.good ++ RawInnings.malformed :: rest })
    (hev : strContains info.eventName "Indian Premier League" = true ∨
           strContains info.eventName "IPL" = true)
    (hlo : 2016 ≤ info.season) (hhi : info.season ≤ 2024)
    (hdates : info.dates = date :: ds)
    (hteams : info.teams = t1 :: t2 :: ts)
    (hdup : fingerprintOf info.season date t1 t2 info.venue ∉ st.processedMatches)
    (hid : st.store.nextId ≠ 0) :
    (processRecord st r).processed = st.processed ∧
    (processRecord st r).store.matchRows
      = st.store.matchRows ++ [matchRowOf info date t1 t2 st.store.nextId] ∧
    (processRecord st r).store.batting
      = st.store.batting ++ battingOfAll st.store.nextId pre 1 ∧
    (processRecord st r).store.bowling
      = st.store.bowling ++ bowlingOfAll st.store.nextId t1 t2 pre 1 := by
  subst hr
  unfold processRecord
  simp only [hdates, hteams, List.head?_cons]
  rw [if_neg (by rcases hev with h | h <;> simp [h])]
  rw [if_neg (by omega)]
  rw [if_neg hdup]
  simp only [insertMatch]
  rw [if_neg hid]
  simp only [processInnings_malformed]
  simp

/-- Witness for the amended C2: the sample bad record over a fresh run
keeps its match row while not being counted processed. -/
theorem processRecord_error_keeps_partial_writes_witness :
    sampleInfo.dates = "2020-04-01" :: [] ∧
    (processRecord initialRun sampleBadRecord).processed = initialRun.processed ∧
    (processRecord initialRun sampleBadRecord).store.matchRows
      = initialRun.store.matchRows
        ++ [matchRowOf sampleInfo "2020-04-01" "CSK" "MI" initialRun.store.nextId] := by
  have h := processRecord_error_keeps_partial_writes initialRun sampleInfo
    "2020-04-01" [] [] "CSK" "MI" [sampleInnings] [] sampleBadRecord rfl
    (Or.inl (by decide)) (by decide) (by decide) rfl rfl (by decide) (by decide)
  exact ⟨rfl, h.1, h.2.1⟩

end CricMetrics
